import Mathlib

/-!
Shallow embedding of the orchestration and cache subsystem of
src/yt_server/server.py (a single-video download server).

Conventions of the embedding:
  * Python strings are `List Char` where substring matching matters
    (error classification), and `String` where they are only used as keys.
  * Timestamps (Python float seconds from time.time) are modelled at
    whole-second granularity as `Int`; time differences and window
    comparisons translate directly.
  * The global ordered dictionaries (video_cache, failed_videos,
    active_downloads) are association lists in insertion order with
    pairwise-distinct keys, which is exactly the reachable-state shape of
    a Python dict; most-recently-used entries sit at the tail.
  * The external yt-dlp process is opaque: one invocation is an `Attempt`
    value giving its outcome (success, or an error text together with the
    stray files it left in the temp directory).
-/

/-! ## Configuration constants (server.py lines 50-56, default values) -/

def MAX_CACHE_SIZE : Nat := 50

def MAX_FAILS_PER_VIDEO : Nat := 2

def FAIL_MEMORY_TIME : Int := 300

/-! ## Media cache: add_to_cache (lines 139-192) and get_from_cache (195-209) -/

structure CacheEntry where
  path : String
  size : Nat
  quality : String
  timestamp : Int
  filename : String
deriving DecidableEq, Repr

/-- One CacheIndex entry: identifier paired with its metadata record. -/
abbrev CachePair := String × CacheEntry

/-- Embedding of the `while len(video_cache) > MAX_CACHE_SIZE:
popitem(last=False)` eviction loop: pop from the front (least recently
used) while the index is over capacity.  Returns the surviving index and
the evicted pairs in eviction order. -/
def evictWhile (maxSize : Nat) : List CachePair → List CachePair × List CachePair
  | [] => ([], [])
  | x :: rest =>
    if (x :: rest).length > maxSize then
      let r := evictWhile maxSize rest
      (r.1, x :: r.2)
    else (x :: rest, [])

/-- Embedding of add_to_cache restricted to the cache index: pop any prior
entry for the identifier, append the fresh entry at the most-recently-used
end (dict insertion of an absent key appends; the following move_to_end is
a no-op), then run the eviction loop.  Returns the new index and the
evicted pairs. -/
def addToCache (maxSize : Nat) (vid : String) (e : CacheEntry)
    (index : List CachePair) : List CachePair × List CachePair :=
  evictWhile maxSize ((index.filter (fun p => p.1 ≠ vid)) ++ [(vid, e)])

/-- One step of a sequence of inserts: run add_to_cache on the accumulated
index and log the identifiers of the evicted entries. -/
def insertStep (maxSize : Nat) (mk : String → CacheEntry)
    (acc : List CachePair × List String) (i : String) :
    List CachePair × List String :=
  let r := addToCache maxSize i (mk i) acc.1
  (r.1, acc.2 ++ r.2.map Prod.fst)

/-- Folding a sequence of inserts (each identifier with its metadata built
by `mk`) over an empty index, accumulating every evicted identifier. -/
def insertAll (maxSize : Nat) (mk : String → CacheEntry) (ids : List String) :
    List CachePair × List String :=
  ids.foldl (insertStep maxSize mk) ([], [])

/-! ## Cache persistence: the on-disk index (save_cache_index, lines 128-136) -/

/-- In-memory cache index paired with the last index written to disk. -/
structure CacheState where
  mem : List CachePair
  disk : List CachePair
deriving DecidableEq, Repr

/-- Embedding of save_cache_index: the disk copy becomes the memory copy. -/
def saveCacheIndex (s : CacheState) : CacheState := { s with disk := s.mem }

/-- Embedding of add_to_cache at the persistence level: mutate the index,
then save_cache_index before returning (line 185). -/
def addToCacheP (maxSize : Nat) (vid : String) (e : CacheEntry)
    (s : CacheState) : CacheState :=
  saveCacheIndex { s with mem := (addToCache maxSize vid e s.mem).1 }

/-- Embedding of get_from_cache (lines 195-209).  `fileExists` is the
file-system oracle for `Path(info["path"]).exists()`.  On a hit the entry
is moved to the most-recently-used end and returned, with no save; on a
stale entry (backing file missing) the entry is popped and the index is
saved; on absence nothing changes. -/
def getFromCache (vid : String) (fileExists : String → Bool)
    (s : CacheState) : CacheState × Option CacheEntry :=
  match s.mem.find? (fun p => p.1 == vid) with
  | none => (s, none)
  | some p =>
    if fileExists p.2.path then
      ({ s with mem := s.mem.filter (fun q => ¬(q.1 = vid)) ++ [(vid, p.2)] },
        some p.2)
    else
      let mem' := s.mem.filter (fun q => ¬(q.1 = vid))
      (saveCacheIndex { s with mem := mem' }, none)

/-! ## Failure memory: check_video_fail_status (236-258), record_video_failure
(261-277) -/

structure FailRec where
  count : Nat
  lastFail : Int
  isBotFlag : Bool
deriving DecidableEq, Repr

structure FailStatus where
  blocked : Bool
  waitSeconds : Int
  failCount : Nat
deriving DecidableEq, Repr

/-- Embedding of the purge at the top of check_video_fail_status: drop every
record with `now - last_fail > FAIL_MEMORY_TIME`. -/
def purgeFails (now : Int) (failed : List (String × FailRec)) :
    List (String × FailRec) :=
  failed.filter (fun p => now - p.2.lastFail ≤ FAIL_MEMORY_TIME)

/-- Embedding of check_video_fail_status: purge expired records, then report
blocked when the identifier has accumulated MAX_FAILS_PER_VIDEO failures,
with the remaining window time as wait_seconds.  Returns the purged table
and the status. -/
def checkVideoFailStatus (vid : String) (now : Int)
    (failed : List (String × FailRec)) :
    List (String × FailRec) × FailStatus :=
  let purged := purgeFails now failed
  match purged.find? (fun p => p.1 == vid) with
  | some p =>
    if MAX_FAILS_PER_VIDEO ≤ p.2.count then
      (purged, ⟨true, FAIL_MEMORY_TIME - (now - p.2.lastFail), p.2.count⟩)
    else (purged, ⟨false, 0, p.2.count⟩)
  | none => (purged, ⟨false, 0, 0⟩)

/-- Embedding of record_video_failure: create a zero record if absent,
increment its count, stamp the failure time, and on a bot error mark the
record and the process-wide last_bot_detection timestamp.  Returns the new
table and the new last_bot_detection. -/
def recordVideoFailure (vid : String) (now : Int) (isBotE : Bool)
    (failed : List (String × FailRec)) (lastBotDetection : Int) :
    List (String × FailRec) × Int :=
  let base :=
    if failed.any (fun p => p.1 == vid) then failed
    else failed ++ [(vid, ⟨0, 0, false⟩)]
  let failed' := base.map (fun p =>
    if p.1 = vid then (p.1, FailRec.mk (p.2.count + 1) now (p.2.isBotFlag || isBotE))
    else p)
  (failed', if isBotE then now else lastBotDetection)

/-! ## Rate controller: wait_for_rate_limit (286-313) -/

structure RateState where
  lastDownloadTime : Int
  lastBotDetection : Int
deriving DecidableEq, Repr

/-- Embedding of wait_for_rate_limit.  `now` is time.time() sampled once on
entry; `cooldownSample` and `delaySample` are the random.uniform draws from
BOT_COOLDOWN and NORMAL_DELAY.  Returns (bot-cooldown sleep, normal-spacing
sleep, new state); the two sleeps happen in that order, the normal-spacing
test reuses the entry `now`, and last_download_time is re-sampled after
both sleeps. -/
def waitForRateLimit (st : RateState) (now cooldownSample delaySample : Int) :
    Int × Int × RateState :=
  let botWait : Int :=
    if 0 < st.lastBotDetection ∧ now - st.lastBotDetection < cooldownSample
    then cooldownSample - (now - st.lastBotDetection) else 0
  let lastBot : Int :=
    if 0 < st.lastBotDetection ∧ now - st.lastBotDetection < cooldownSample
    then 0 else st.lastBotDetection
  let normalWait : Int :=
    if 0 < st.lastDownloadTime ∧ now - st.lastDownloadTime < delaySample
    then delaySample - (now - st.lastDownloadTime) else 0
  (botWait, normalWait, ⟨now + botWait + normalWait, lastBot⟩)

/-! ## Quality fallback selection: get_quality_formats (212-233) -/

def allFormats : List (String × String) :=
  [("4K60", "bv*[height>=2160][fps>=50]+ba/b"),
   ("4K", "bv*[height>=2160]+ba/b"),
   ("1080p60", "bv*[height<=1080][fps>=50]+ba/b[height<=1080]/b"),
   ("1080p", "bv*[height<=1080]+ba/b[height<=1080]/b"),
   ("720p60", "bv*[height<=720][fps>=50]+ba/b[height<=720]/b"),
   ("720p", "bv*[height<=720]+ba/b[height<=720]/b"),
   ("480p", "bv*[height<=480]+ba/b[height<=480]/b"),
   ("360p", "bv*[height<=360]+ba/b[height<=360]/b"),
   ("worst", "worst")]

/-- Embedding of the start_index dictionary lookup with default 2. -/
def startIndex (q : String) : Nat :=
  if q = "max" then 0
  else if q = "1080" then 2
  else if q = "720" then 4
  else if q = "360" then 7
  else 2

def getQualityFormats (q : String) : List (String × String) :=
  allFormats.drop (startIndex q)

/-! ## Error-text classification: is_bot_error (280-283) and the substring
tests of try_download_with_fallback (462-469) -/

def lowerStr (s : List Char) : List Char := s.map Char.toLower

/-- Substring containment test, the embedding of the Python `in` operator
on strings. -/
def containsSub (sub : List Char) : List Char → Bool
  | [] => sub.isPrefixOf []
  | c :: rest => sub.isPrefixOf (c :: rest) || containsSub sub rest

/-- Embedding of is_bot_error: any of the block-detection markers occurs in
the lowercased error text. -/
def isBotError (e : List Char) : Bool :=
  ["sign in".data, "bot".data, "confirm you\x27re not".data].any
    (fun w => containsSub w (lowerStr e))

/-- Embedding of the format-rejection test of the fallback loop: "403" in
the raw error, or "forbidden" or "format" in the lowercased error. -/
def isFormatError (e : List Char) : Bool :=
  containsSub "403".data e
    || containsSub "forbidden".data (lowerStr e)
    || containsSub "format".data (lowerStr e)

inductive AttemptClass where
  | success
  | blockDetected
  | formatRejected
  | otherFailure
deriving DecidableEq, Repr

/-- Classification an error text receives in the fallback loop's if-chain:
the bot test runs first, then the format test, otherwise other-failure. -/
def classifyError (e : List Char) : AttemptClass :=
  if isBotError e then .blockDetected
  else if isFormatError e then .formatRejected
  else .otherFailure

/-! ## Error-output collection of download_video (372-421) -/

/-- Embedding of the progress-line test at the head of download_video's
routing chain: `'%' in line and ('of' in line or 'ETA' in line)`.  A line
matching it is consumed as a progress update and never reaches the later
branches. -/
def isProgressLine (l : List Char) : Bool :=
  containsSub "%".data l
    && (containsSub "of".data l || containsSub "ETA".data l)

/-- Embedding of the condition under which a line lands in error_output:
it must fall through the progress branch first, then satisfy the elif
test `'error' in line.lower() or 'ERROR' in line`. -/
def isErrorLine (l : List Char) : Bool :=
  !(isProgressLine l)
    && (containsSub "error".data (lowerStr l) || containsSub "ERROR".data l)

/-- Newline join, the embedding of `"\n".join(error_output)`. -/
def joinLines : List (List Char) → List Char
  | [] => []
  | [l] => l
  | l :: ls => l ++ '\n' :: joinLines ls

/-- Embedding of the error message download_video returns on a non-zero
exit code: the collected error lines joined, or a fallback message naming
the exit code when no line contained "error". -/
def errMsg (lines : List (List Char)) (exitCode : Int) : List Char :=
  let errs := lines.filter isErrorLine
  if errs.isEmpty then "yt-dlp exited with code ".data ++ (toString exitCode).data
  else joinLines errs

inductive DlOutcome where
  | ok (artifact : List Char)
  | err (msg : List Char)
deriving DecidableEq, Repr

/-- Embedding of the tail of download_video: non-zero exit yields the
assembled error message; a zero exit with no output file yields the
file-not-found error; otherwise success with the found artifact. -/
def downloadOutcome (lines : List (List Char)) (exitCode : Int)
    (found : Option (List Char)) : DlOutcome :=
  if exitCode ≠ 0 then .err (errMsg lines exitCode)
  else
    match found with
    | none => .err "Output file not found".data
    | some p => .ok p

/-! ## Fallback loop: try_download_with_fallback (447-488).  One external
invocation is abstracted as an `Attempt`: either success with an artifact
path, or failure with the error text and the stray files the attempt left
in the temp directory. -/

inductive Attempt where
  | ok (artifact : List Char)
  | err (msg : List Char) (leftover : List (List Char))
deriving DecidableEq, Repr

/-- Trace of one try_download_with_fallback run: how many invocations ran,
how many partial-file cleanup passes ran, the is_bot flags passed to
record_video_failure in order, the temp-directory contents on return, and
the returned result. -/
structure RunLog where
  attempts : Nat
  cleanups : Nat
  recorded : List Bool
  temp : List (List Char)
  result : DlOutcome
deriving DecidableEq, Repr

/-- Embedding of the glob pattern f-string video_id + underscore + star
used when deleting partial output files. -/
def vidMatches (vid f : List Char) : Bool := (vid ++ "_".data).isPrefixOf f

/-- Embedding of the try_download_with_fallback loop body over the
remaining attempts: success returns the artifact; a bot-classified error
records a bot failure and stops; a 403/forbidden/format error deletes the
identifier's partial files and continues with the next descriptor; any
other error records an ordinary failure and stops; an exhausted list
records an ordinary failure and returns the all-formats-failed error. -/
def runFallback (vid : List Char) : List Attempt → List (List Char) → RunLog
  | [], temp => ⟨0, 0, [false], temp, .err "All formats failed".data⟩
  | a :: rest, temp =>
    match a with
    | .ok art => ⟨1, 0, [], temp, .ok art⟩
    | .err msg leftover =>
      let temp1 := temp ++ leftover
      if isBotError msg then ⟨1, 0, [true], temp1, .err msg⟩
      else if isFormatError msg then
        let r := runFallback vid rest (temp1.filter (fun f => ¬(vidMatches vid f = true)))
        ⟨r.attempts + 1, r.cleanups + 1, r.recorded, r.temp, r.result⟩
      else ⟨1, 0, [false], temp1, .err msg⟩

/-- Attempts the loop treats as non-fatal: a failed attempt whose error is
format-classified but not bot-classified. -/
def isFmtRejAttempt : Attempt → Bool
  | .ok _ => false
  | .err m _ => !isBotError m && isFormatError m

/-! ## HTTP layer: YTDownloadHandler (491-815) -/

structure ServerState where
  cache : CacheState
  failed : List (String × FailRec)
  active : List (String × String)
  rate : RateState
deriving DecidableEq, Repr

/-- Python dict assignment: update in place if the key exists (keeping its
position), otherwise append. -/
def dictSet (k v : String) (l : List (String × String)) :
    List (String × String) :=
  if l.any (fun p => p.1 == k) then
    l.map (fun p => if p.1 = k then (k, v) else p)
  else l ++ [(k, v)]

/-- Python dict pop with default: remove the key's entry if present. -/
def dictPop (k : String) (l : List (String × String)) :
    List (String × String) :=
  l.filter (fun p => ¬(p.1 = k))

inductive Resp where
  | health (cacheSize : Nat) (failedCount : Nat) (botCooldown : Bool)
  | errJson (msg : String) (status : Nat)
  | streamed (vid : String) (quality : String) (fromCache : Bool)
  | handled (tag : String)
deriving DecidableEq, Repr

/-- Embedding of stream_file (706-772): registers the identifier in
active_downloads with a transferring record (overwriting any existing
record in place), writes the artifact to the peer tolerating a disconnect,
and returns without touching the registry again. -/
def streamFile (vid : String) (quality : String) (fromCache : Bool)
    (st : ServerState) : ServerState × Resp :=
  ({ st with active := dictSet vid "transferring" st.active },
    .streamed vid quality fromCache)

/-- Result of the rate-limited fetch phase of handle_download
(wait_for_rate_limit plus try_download_with_fallback), abstracted: either
an artifact with its metadata, or the failure's error text. -/
inductive FetchRes where
  | fetchOk (path : String) (size : Nat) (quality : String) (filename : String)
  | fetchErr (msg : String)
deriving DecidableEq, Repr

/-- Embedding of the status-code choice for a failed download (671-676). -/
def failStatusCode (e : String) : Nat :=
  if isBotError e.data then 503
  else if containsSub "blocked".data (lowerStr e.data)
      || containsSub "429".data e.data then 429
  else 500

/-- Embedding of handle_download (608-704).  `fetch` abstracts the
rate-limit wait plus the fallback download loop (both may mutate server
state); `fileExists` is the file-system oracle.  The try/finally of the
source wraps only the part after admission into active_downloads; the
cache-hit path streams and returns before it. -/
def handleDownload (fetch : ServerState → ServerState × FetchRes)
    (videoId : Option String) (quality : String) (now : Int)
    (fileExists : String → Bool) (st : ServerState) : ServerState × Resp :=
  match videoId with
  | none => (st, .errJson "Missing video_id" 400)
  | some vid =>
    if ¬(quality = "max" ∨ quality = "1080" ∨ quality = "720" ∨ quality = "360")
    then (st, .errJson "Invalid quality" 400)
    else
      match getFromCache vid fileExists st.cache with
      | (c', some info) =>
        streamFile vid info.quality true { st with cache := c' }
      | (c', none) =>
        let st1 := { st with cache := c' }
        let r := checkVideoFailStatus vid now st1.failed
        let st2 := { st1 with failed := r.1 }
        if r.2.blocked then
          (st2, .errJson
            ("Video failed " ++ toString r.2.failCount
              ++ " times. Wait " ++ toString r.2.waitSeconds
              ++ "s before retry.") 429)
        else if st2.active.any (fun p => p.1 == vid) then
          (st2, .errJson "Download already in progress" 409)
        else
          let st3 := { st2 with active := dictSet vid "queued" st2.active }
          let fr := fetch st3
          match fr.2 with
          | .fetchErr msg =>
            let st5 := { fr.1 with active := dictPop vid fr.1.active }
            ({ st5 with active := dictPop vid st5.active },
              .errJson msg (failStatusCode msg))
          | .fetchOk path size qual fname =>
            let entry : CacheEntry := ⟨path, size, qual, now, fname⟩
            let st5 := { fr.1 with
              cache := addToCacheP MAX_CACHE_SIZE vid entry fr.1.cache,
              failed := fr.1.failed.filter (fun p => ¬(p.1 = vid)) }
            let sr := streamFile vid qual false st5
            ({ sr.1 with active := dictPop vid sr.1.active }, sr.2)

/-- Embedding of the /health response (531-545): a state snapshot built
without consulting the API key. -/
def healthResp (now : Int) (st : ServerState) : Resp :=
  .health st.cache.mem.length st.failed.length
    (decide (0 < st.rate.lastBotDetection
      ∧ now - st.rate.lastBotDetection < 60))

/-- Embedding of do_GET (526-565): /health answers before any credential
check; every other path first runs check_auth, answering 401 on a key
mismatch without touching state, then dispatches to its handler. -/
def doGET (handle : String → ServerState → ServerState × Resp)
    (path : String) (apiKeyHeader configuredKey : String) (now : Int)
    (st : ServerState) : ServerState × Resp :=
  if path = "/health" then (st, healthResp now st)
  else if ¬(apiKeyHeader = configuredKey) then
    (st, .errJson "Invalid API key" 401)
  else if path = "/download" ∨ path = "/status" ∨ path = "/cache"
      ∨ path = "/failed" ∨ path = "/active" then
    handle path st
  else (st, .errJson "Unknown endpoint" 404)

/-! ## Helper lemmas for the eviction loop -/

lemma evictWhile_eq (maxSize : Nat) (l : List CachePair) :
    evictWhile maxSize l =
      (l.drop (l.length - maxSize), l.take (l.length - maxSize)) := by
  induction l with
  | nil => simp [evictWhile]
  | cons x rest ih =>
    by_cases h : (x :: rest).length > maxSize
    · have h1 : maxSize ≤ rest.length := by
        simp only [List.length_cons] at h; omega
      have h2 : (x :: rest).length - maxSize = (rest.length - maxSize) + 1 := by
        simp only [List.length_cons]; omega
      simp only [evictWhile, if_pos h, ih, h2, List.drop_succ_cons,
        List.take_succ_cons]
    · simp only [evictWhile, if_neg h]
      have h2 : (x :: rest).length - maxSize = 0 := by
        simp only [List.length_cons, gt_iff_lt, not_lt] at h
        simp only [List.length_cons]
        omega
      rw [h2]
      simp

lemma filter_ne_of_not_mem {α : Type} [DecidableEq α] {β : Type}
    (l : List (α × β)) (k : α) (h : k ∉ l.map Prod.fst) :
    l.filter (fun p => p.1 ≠ k) = l := by
  apply List.filter_eq_self.mpr
  intro p hp
  have : p.1 ∈ l.map Prod.fst := List.mem_map_of_mem Prod.fst hp
  have : p.1 ≠ k := fun he => h (he ▸ this)
  simpa using this

lemma insertAll_go (maxSize : Nat) (mk : String → CacheEntry) :
    ∀ (ids : List String) (acc : List CachePair) (ev : List String),
      ((acc.map Prod.fst) ++ ids).Nodup →
      acc.length + ids.length ≤ maxSize →
      ids.foldl (insertStep maxSize mk) (acc, ev) =
        (acc ++ ids.map (fun j => (j, mk j)), ev) := by
  intro ids
  induction ids with
  | nil => intro acc ev _ _; simp
  | cons i ids' ih =>
    intro acc ev hnd hlen
    have hi : i ∉ acc.map Prod.fst := by
      have hd := (List.nodup_append.mp hnd).2.2
      intro hmem
      exact hd hmem (by simp)
    have hstep : insertStep maxSize mk (acc, ev) i = (acc ++ [(i, mk i)], ev) := by
      have hlen2 : acc.length + 1 - maxSize = 0 := by
        simp only [List.length_cons] at hlen
        omega
      simp only [insertStep, addToCache]
      rw [filter_ne_of_not_mem acc i hi, evictWhile_eq]
      simp [hlen2]
    rw [List.foldl_cons, hstep, ih (acc ++ [(i, mk i)]) ev]
    · simp
    · simp only [List.map_append, List.map_cons, List.map_nil]
      have : (acc.map Prod.fst ++ [i]) ++ ids' = acc.map Prod.fst ++ (i :: ids') := by
        simp
      rw [this]
      exact hnd
    · simp only [List.length_append, List.length_cons, List.length_nil]
      simp only [List.length_cons] at hlen
      omega

/-- C1: after every add_to_cache call the index holds at most maxSize
entries; the entries evicted by the call are exactly the front (least
recently used) segment of the post-insert index, the index keeping the
rest; and inserting N+1 pairwise-distinct identifiers into an empty cache
of capacity N evicts exactly the first-inserted identifier. -/
theorem cache_insert_lru_spec :
    (∀ (maxSize : Nat) (vid : String) (e : CacheEntry) (index : List CachePair),
      ((addToCache maxSize vid e index).1).length ≤ maxSize) ∧
    (∀ (maxSize : Nat) (vid : String) (e : CacheEntry) (index : List CachePair),
      (addToCache maxSize vid e index).2 =
        ((index.filter (fun p => p.1 ≠ vid)) ++ [(vid, e)]).take
          ((((index.filter (fun p => p.1 ≠ vid)) ++ [(vid, e)]).length) - maxSize) ∧
      (addToCache maxSize vid e index).1 =
        ((index.filter (fun p => p.1 ≠ vid)) ++ [(vid, e)]).drop
          ((((index.filter (fun p => p.1 ≠ vid)) ++ [(vid, e)]).length) - maxSize)) ∧
    (∀ (N : Nat) (i : String) (rest : List String) (mk : String → CacheEntry),
      (i :: rest).Nodup → rest.length = N →
      insertAll N mk (i :: rest) = (rest.map (fun j => (j, mk j)), [i])) := by
  refine ⟨?_, ?_, ?_⟩
  · intro maxSize vid e index
    simp only [addToCache, evictWhile_eq, List.length_drop]
    omega
  · intro maxSize vid e index
    simp [addToCache, evictWhile_eq]
  · intro N i rest mk hnd hlen
    have hne : (i :: rest) ≠ [] := by simp
    have hsplit := List.dropLast_concat_getLast hne
    set front := (i :: rest).dropLast with hfront
    set lst := (i :: rest).getLast hne with hlst
    have hfrontlen : front.length = N := by
      rw [hfront, List.length_dropLast]
      simp [hlen]
    have hfnd : front.Nodup := hnd.sublist (List.dropLast_sublist _)
    have hgo := insertAll_go N mk front [] [] (by simpa using hfnd) (by simp [hfrontlen])
    have hlstfront : lst ∉ front := by
      have h2 : (front ++ [lst]).Nodup := by rw [hsplit]; exact hnd
      have h3 := (List.nodup_append.mp h2).2.2
      intro hmem
      exact h3 hmem (by simp)
    unfold insertAll
    rw [← hsplit, List.foldl_append, hgo]
    simp only [List.foldl_cons, List.foldl_nil, List.nil_append]
    have hfil : (front.map (fun j => (j, mk j))).filter (fun p => p.1 ≠ lst)
        = front.map (fun j => (j, mk j)) := by
      apply filter_ne_of_not_mem
      intro hmem
      apply hlstfront
      simpa [List.map_map, Function.comp] using hmem
    simp only [insertStep, addToCache]
    rw [hfil, evictWhile_eq]
    have hmapsplit : front.map (fun j => (j, mk j)) ++ [(lst, mk lst)]
        = (i :: rest).map (fun j => (j, mk j)) := by
      rw [show [(lst, mk lst)] = [lst].map (fun j => (j, mk j)) from rfl,
        ← List.map_append, hsplit]
    rw [hmapsplit]
    have hlen1 : ((i :: rest).map (fun j => (j, mk j))).length - N = 1 := by
      simp [hlen]
    rw [hlen1]
    simp


/-- Witness for cache_insert_lru_spec: capacity 2, three distinct
identifiers; the first-inserted identifier is the one evicted. -/
theorem cache_insert_lru_spec_witness :
    insertAll 2 (fun j => CacheEntry.mk j 0 "q" 0 j) ["a", "b", "c"]
      = (["b", "c"].map (fun j => (j, CacheEntry.mk j 0 "q" 0 j)), ["a"]) :=
  cache_insert_lru_spec.2.2 2 "a" ["b", "c"]
    (fun j => CacheEntry.mk j 0 "q" 0 j) (by decide) (by decide)

/-! ## Helper lemmas for the failure-memory table -/

lemma find_key_nodup (vid : String) :
    ∀ (l : List (String × FailRec)), (l.map Prod.fst).Nodup →
      ∀ p : String × FailRec,
        (l.find? (fun q => q.1 == vid) = some p ↔ (p ∈ l ∧ p.1 = vid)) := by
  intro l
  induction l with
  | nil => intro _ p; simp
  | cons q l' ih =>
    intro hnd p
    have hnd' : (l'.map Prod.fst).Nodup := (List.nodup_cons.mp hnd).2
    have hq1 : q.1 ∉ l'.map Prod.fst := (List.nodup_cons.mp hnd).1
    by_cases hq : q.1 = vid
    · rw [List.find?_cons_of_pos _ (by simp [hq])]
      constructor
      · intro h1
        have hpq : q = p := Option.some.inj h1
        subst hpq
        exact ⟨List.mem_cons_self q l', hq⟩
      · rintro ⟨hmem, hp⟩
        rcases List.mem_cons.mp hmem with h1 | h1
        · rw [h1]
        · exfalso
          apply hq1
          rw [hq, ← hp]
          exact List.mem_map_of_mem Prod.fst h1
    · rw [List.find?_cons_of_neg _ (by simp [hq])]
      rw [ih hnd' p]
      constructor
      · rintro ⟨hm, hp⟩
        exact ⟨List.mem_cons_of_mem _ hm, hp⟩
      · rintro ⟨hmem, hp⟩
        rcases List.mem_cons.mp hmem with h1 | h1
        · exact absurd (h1 ▸ hp : q.1 = vid) hq
        · exact ⟨h1, hp⟩

lemma purge_keys_nodup (now : Int) (failed : List (String × FailRec))
    (h : (failed.map Prod.fst).Nodup) :
    ((purgeFails now failed).map Prod.fst).Nodup :=
  h.sublist ((List.filter_sublist failed).map Prod.fst)

lemma mem_purge_iff (now : Int) (failed : List (String × FailRec))
    (p : String × FailRec) :
    p ∈ purgeFails now failed ↔
      p ∈ failed ∧ now - p.2.lastFail ≤ FAIL_MEMORY_TIME := by
  simp [purgeFails, List.mem_filter]

lemma check_status_eq (vid : String) (now : Int)
    (failed : List (String × FailRec)) (hnd : (failed.map Prod.fst).Nodup)
    (r : FailRec) (hmem : (vid, r) ∈ failed)
    (hwin : now - r.lastFail ≤ FAIL_MEMORY_TIME)
    (hcnt : MAX_FAILS_PER_VIDEO ≤ r.count) :
    (checkVideoFailStatus vid now failed).2
      = ⟨true, FAIL_MEMORY_TIME - (now - r.lastFail), r.count⟩ := by
  have hfind : (purgeFails now failed).find? (fun p => p.1 == vid)
      = some (vid, r) := by
    rw [find_key_nodup vid _ (purge_keys_nodup now failed hnd)]
    exact ⟨(mem_purge_iff now failed (vid, r)).mpr ⟨hmem, hwin⟩, rfl⟩
  simp only [checkVideoFailStatus, hfind, if_pos hcnt]

lemma check_blocked_iff (vid : String) (now : Int)
    (failed : List (String × FailRec)) (hnd : (failed.map Prod.fst).Nodup) :
    (checkVideoFailStatus vid now failed).2.blocked = true ↔
      ∃ r : FailRec, (vid, r) ∈ failed ∧ MAX_FAILS_PER_VIDEO ≤ r.count
        ∧ now - r.lastFail ≤ FAIL_MEMORY_TIME := by
  constructor
  · intro hb
    rcases hfind : (purgeFails now failed).find? (fun p => p.1 == vid) with _ | p
    · simp only [checkVideoFailStatus, hfind] at hb
      exact Bool.noConfusion hb
    · have hchar := (find_key_nodup vid _ (purge_keys_nodup now failed hnd) p).mp hfind
      have hmem := (mem_purge_iff now failed p).mp hchar.1
      by_cases hcnt : MAX_FAILS_PER_VIDEO ≤ p.2.count
      · refine ⟨p.2, ?_, hcnt, hmem.2⟩
        have : p = (vid, p.2) := by
          rw [← hchar.2]
        rw [← this]
        exact hmem.1
      · simp only [checkVideoFailStatus, hfind, if_neg hcnt] at hb
        exact Bool.noConfusion hb
  · rintro ⟨r, hmem, hcnt, hwin⟩
    rw [check_status_eq vid now failed hnd r hmem hwin hcnt]

lemma check_fst (vid : String) (now : Int)
    (failed : List (String × FailRec)) :
    (checkVideoFailStatus vid now failed).1 = purgeFails now failed := by
  cases hf : (purgeFails now failed).find? (fun p => p.1 == vid) with
  | none => simp [checkVideoFailStatus, hf]
  | some p =>
    by_cases h : MAX_FAILS_PER_VIDEO ≤ p.2.count <;>
      simp [checkVideoFailStatus, hf, h]

/-- C2: check_video_fail_status reports an identifier blocked exactly when
a failure record for it has count at least MAX_FAILS_PER_VIDEO and at most
FAIL_MEMORY_TIME has elapsed since its last failure; in that case the
reported wait equals the remaining window time; records older than the
window never survive a check call; and as time advances the identifier
stays blocked with a weakly decreasing wait until the window elapses. -/
theorem fail_status_spec (vid : String) (now : Int)
    (failed : List (String × FailRec)) (hnd : (failed.map Prod.fst).Nodup) :
    ((checkVideoFailStatus vid now failed).2.blocked = true ↔
      ∃ r : FailRec, (vid, r) ∈ failed ∧ MAX_FAILS_PER_VIDEO ≤ r.count
        ∧ now - r.lastFail ≤ FAIL_MEMORY_TIME)
    ∧ (∀ r : FailRec, (vid, r) ∈ failed → MAX_FAILS_PER_VIDEO ≤ r.count →
        now - r.lastFail ≤ FAIL_MEMORY_TIME →
        (checkVideoFailStatus vid now failed).2.waitSeconds
          = FAIL_MEMORY_TIME - (now - r.lastFail))
    ∧ (∀ (v : String) (r : FailRec), (v, r) ∈ failed →
        FAIL_MEMORY_TIME < now - r.lastFail →
        (v, r) ∉ (checkVideoFailStatus vid now failed).1)
    ∧ (∀ now' : Int, now ≤ now' →
        (checkVideoFailStatus vid now' failed).2.blocked = true →
        (checkVideoFailStatus vid now failed).2.blocked = true
        ∧ (checkVideoFailStatus vid now' failed).2.waitSeconds
            ≤ (checkVideoFailStatus vid now failed).2.waitSeconds) := by
  refine ⟨check_blocked_iff vid now failed hnd, ?_, ?_, ?_⟩
  · intro r hmem hcnt hwin
    rw [check_status_eq vid now failed hnd r hmem hwin hcnt]
  · intro v r hmem hexp hin
    rw [check_fst] at hin
    have hw := ((mem_purge_iff now failed (v, r)).mp hin).2
    simp only at hw
    omega
  · intro now' hle hb'
    obtain ⟨r, hmem, hcnt, hwin'⟩ := (check_blocked_iff vid now' failed hnd).mp hb'
    have hwin : now - r.lastFail ≤ FAIL_MEMORY_TIME := by omega
    refine ⟨(check_blocked_iff vid now failed hnd).mpr ⟨r, hmem, hcnt, hwin⟩, ?_⟩
    rw [check_status_eq vid now failed hnd r hmem hwin hcnt,
      check_status_eq vid now' failed hnd r hmem hwin' hcnt]
    simp only
    omega

/-- Witness for fail_status_spec: a record with two failures 50 seconds
ago is blocked with 250 seconds of window remaining. -/
theorem fail_status_spec_witness :
    (checkVideoFailStatus "v" 150 [("v", ⟨2, 100, false⟩)]).2.blocked = true
    ∧ (checkVideoFailStatus "v" 150 [("v", ⟨2, 100, false⟩)]).2.waitSeconds
        = 250 := by
  have h := fail_status_spec "v" 150 [("v", ⟨2, 100, false⟩)] (by decide)
  exact ⟨h.1.mpr ⟨⟨2, 100, false⟩, by decide, by decide, by decide⟩,
    (h.2.1 ⟨2, 100, false⟩ (by decide) (by decide) (by decide)).trans (by decide)⟩

/-! ## Helper lemmas for the fallback loop -/

lemma runFallback_step_ok (vid art : List Char) (rest : List Attempt)
    (temp : List (List Char)) :
    runFallback vid (.ok art :: rest) temp = ⟨1, 0, [], temp, .ok art⟩ := by
  simp [runFallback]

lemma runFallback_step_bot (vid msg : List Char) (lv : List (List Char))
    (rest : List Attempt) (temp : List (List Char))
    (hb : isBotError msg = true) :
    runFallback vid (.err msg lv :: rest) temp
      = ⟨1, 0, [true], temp ++ lv, .err msg⟩ := by
  simp [runFallback, hb]

lemma runFallback_step_other (vid msg : List Char) (lv : List (List Char))
    (rest : List Attempt) (temp : List (List Char))
    (hb : isBotError msg = false) (hf : isFormatError msg = false) :
    runFallback vid (.err msg lv :: rest) temp
      = ⟨1, 0, [false], temp ++ lv, .err msg⟩ := by
  simp [runFallback, hb, hf]

lemma runFallback_step_fmtRej (vid msg : List Char) (lv : List (List Char))
    (rest : List Attempt) (temp : List (List Char))
    (hb : isBotError msg = false) (hf : isFormatError msg = true) :
    runFallback vid (.err msg lv :: rest) temp
      = ⟨(runFallback vid rest
            ((temp ++ lv).filter (fun f => ¬(vidMatches vid f = true)))).attempts + 1,
         (runFallback vid rest
            ((temp ++ lv).filter (fun f => ¬(vidMatches vid f = true)))).cleanups + 1,
         (runFallback vid rest
            ((temp ++ lv).filter (fun f => ¬(vidMatches vid f = true)))).recorded,
         (runFallback vid rest
            ((temp ++ lv).filter (fun f => ¬(vidMatches vid f = true)))).temp,
         (runFallback vid rest
            ((temp ++ lv).filter (fun f => ¬(vidMatches vid f = true)))).result⟩ := by
  simp [runFallback, hb, hf]

lemma runFallback_skip (vid : List Char) :
    ∀ (pre tail : List Attempt) (temp : List (List Char)),
      (∀ a ∈ pre, isFmtRejAttempt a = true) →
      ∃ temp' : List (List Char),
        (runFallback vid (pre ++ tail) temp).attempts
            = pre.length + (runFallback vid tail temp').attempts
        ∧ (runFallback vid (pre ++ tail) temp).cleanups
            = pre.length + (runFallback vid tail temp').cleanups
        ∧ (runFallback vid (pre ++ tail) temp).recorded
            = (runFallback vid tail temp').recorded
        ∧ (runFallback vid (pre ++ tail) temp).result
            = (runFallback vid tail temp').result := by
  intro pre
  induction pre with
  | nil => intro tail temp _; exact ⟨temp, by simp, by simp, rfl, rfl⟩
  | cons a pre' ih =>
    intro tail temp h
    have ha := h a (by simp)
    cases a with
    | ok art => simp [isFmtRejAttempt] at ha
    | err msg lv =>
      simp only [isFmtRejAttempt, Bool.and_eq_true, Bool.not_eq_true'] at ha
      obtain ⟨hb, hf⟩ := ha
      obtain ⟨temp', h1, h2, h3, h4⟩ :=
        ih tail ((temp ++ lv).filter (fun f => ¬(vidMatches vid f = true)))
          (fun x hx => h x (by simp [hx]))
      refine ⟨temp', ?_, ?_, ?_, ?_⟩ <;>
        rw [List.cons_append, runFallback_step_fmtRej vid msg lv _ temp hb hf] <;>
        simp only [List.length_cons]
      · omega
      · omega
      · exact h3
      · exact h4

/-- C3: over any fallback run, every format-rejected attempt triggers one
partial-file cleanup pass and moves on to the next descriptor; the first
non-format-rejected attempt ends the loop with no later descriptor tried
(success records nothing, a bot-classified error records one bot failure,
any other error records one ordinary failure, and the error result is the
failing attempt's); exhausting all descriptors records one ordinary
failure and returns the all-formats-failed error. -/
theorem fallback_outcomes_spec (vid : List Char) (temp : List (List Char))
    (pre : List Attempt) (hpre : ∀ a ∈ pre, isFmtRejAttempt a = true) :
    ((runFallback vid pre temp).attempts = pre.length
      ∧ (runFallback vid pre temp).cleanups = pre.length
      ∧ (runFallback vid pre temp).recorded = [false]
      ∧ (runFallback vid pre temp).result = .err "All formats failed".data)
    ∧ (∀ (art : List Char) (post : List Attempt),
        (runFallback vid (pre ++ .ok art :: post) temp).attempts = pre.length + 1
        ∧ (runFallback vid (pre ++ .ok art :: post) temp).cleanups = pre.length
        ∧ (runFallback vid (pre ++ .ok art :: post) temp).recorded = []
        ∧ (runFallback vid (pre ++ .ok art :: post) temp).result = .ok art)
    ∧ (∀ (msg : List Char) (lv : List (List Char)) (post : List Attempt),
        isBotError msg = true →
        (runFallback vid (pre ++ .err msg lv :: post) temp).attempts = pre.length + 1
        ∧ (runFallback vid (pre ++ .err msg lv :: post) temp).cleanups = pre.length
        ∧ (runFallback vid (pre ++ .err msg lv :: post) temp).recorded = [true]
        ∧ (runFallback vid (pre ++ .err msg lv :: post) temp).result = .err msg)
    ∧ (∀ (msg : List Char) (lv : List (List Char)) (post : List Attempt),
        isBotError msg = false → isFormatError msg = false →
        (runFallback vid (pre ++ .err msg lv :: post) temp).attempts = pre.length + 1
        ∧ (runFallback vid (pre ++ .err msg lv :: post) temp).cleanups = pre.length
        ∧ (runFallback vid (pre ++ .err msg lv :: post) temp).recorded = [false]
        ∧ (runFallback vid (pre ++ .err msg lv :: post) temp).result = .err msg) := by
  refine ⟨?_, ?_, ?_, ?_⟩
  · obtain ⟨temp', h1, h2, h3, h4⟩ :=
      runFallback_skip vid pre [] temp hpre
    rw [List.append_nil] at h1 h2 h3 h4
    refine ⟨?_, ?_, ?_, ?_⟩ <;> simp [h1, h2, h3, h4, runFallback]
  · intro art post
    obtain ⟨temp', h1, h2, h3, h4⟩ :=
      runFallback_skip vid pre (.ok art :: post) temp hpre
    rw [runFallback_step_ok] at h1 h2 h3 h4
    exact ⟨by simpa using h1, by simpa using h2, h3, h4⟩
  · intro msg lv post hb
    obtain ⟨temp', h1, h2, h3, h4⟩ :=
      runFallback_skip vid pre (.err msg lv :: post) temp hpre
    rw [runFallback_step_bot vid msg lv post temp' hb] at h1 h2 h3 h4
    exact ⟨by simpa using h1, by simpa using h2, h3, h4⟩
  · intro msg lv post hb hf
    obtain ⟨temp', h1, h2, h3, h4⟩ :=
      runFallback_skip vid pre (.err msg lv :: post) temp hpre
    rw [runFallback_step_other vid msg lv post temp' hb hf] at h1 h2 h3 h4
    exact ⟨by simpa using h1, by simpa using h2, h3, h4⟩

/-- Witness for fallback_outcomes_spec: one 403-rejected attempt followed
by a success returns the success with one cleanup pass and nothing
recorded; the 403 attempt alone exhausts the list and records an ordinary
failure. -/
theorem fallback_outcomes_spec_witness :
    ((runFallback "v".data [.err "HTTP Error 403".data []] []).recorded = [false]
      ∧ (runFallback "v".data [.err "HTTP Error 403".data []] []).result
          = .err "All formats failed".data)
    ∧ (runFallback "v".data [.err "HTTP Error 403".data [], .ok "v_x.mp4".data] []).result
        = .ok "v_x.mp4".data
    ∧ (runFallback "v".data [.err "HTTP Error 403".data [], .ok "v_x.mp4".data] []).cleanups
        = 1 := by
  have h := fallback_outcomes_spec "v".data [] [.err "HTTP Error 403".data []]
    (by decide)
  exact ⟨⟨h.1.2.2.1, h.1.2.2.2⟩, (h.2.1 "v_x.mp4".data []).2.2.2,
    ((h.2.1 "v_x.mp4".data []).2.1).trans (by decide)⟩

/-- Counterexample to C8 as stated: an attempt that fails with an
ordinary (non-bot, non-format) error leaves its partial file for the
identifier in the temp directory when the failure is returned to the
caller. -/
theorem failure_leaves_partial_file :
    (runFallback "vid".data
        [.err "Network unreachable".data ["vid_tmp.mp4".data]] []).result
      = .err "Network unreachable".data
    ∧ (runFallback "vid".data
        [.err "Network unreachable".data ["vid_tmp.mp4".data]] []).recorded
      = [false]
    ∧ "vid_tmp.mp4".data ∈
        (runFallback "vid".data
          [.err "Network unreachable".data ["vid_tmp.mp4".data]] []).temp
    ∧ vidMatches "vid".data "vid_tmp.mp4".data = true := by decide

/-- C8 amended: the identifier's partial files are deleted only on
format-rejected outcomes, before the next descriptor is attempted — so a
run that exhausts the descriptor list leaves no partial file for the
identifier — while a block-detected or other failure returns with the
failing attempt's leftover files still present. -/
theorem partial_cleanup_amended :
    (∀ (vid : List Char) (atts : List Attempt) (temp : List (List Char)),
      atts ≠ [] → (∀ a ∈ atts, isFmtRejAttempt a = true) →
      ∀ f ∈ (runFallback vid atts temp).temp, vidMatches vid f = false)
    ∧ (∀ (vid msg : List Char) (lv : List (List Char)) (rest : List Attempt)
        (temp : List (List Char)), isBotError msg = true →
      (runFallback vid (.err msg lv :: rest) temp).temp = temp ++ lv)
    ∧ (∀ (vid msg : List Char) (lv : List (List Char)) (rest : List Attempt)
        (temp : List (List Char)),
      isBotError msg = false → isFormatError msg = false →
      (runFallback vid (.err msg lv :: rest) temp).temp = temp ++ lv) := by
  refine ⟨?_, ?_, ?_⟩
  · intro vid atts
    induction atts with
    | nil => intro temp hne _; exact absurd rfl hne
    | cons a rest ih =>
      intro temp _ hall f hf
      have ha := hall a (by simp)
      cases a with
      | ok art => simp [isFmtRejAttempt] at ha
      | err msg lv =>
        simp only [isFmtRejAttempt, Bool.and_eq_true, Bool.not_eq_true'] at ha
        obtain ⟨hb, hfmt⟩ := ha
        rw [runFallback_step_fmtRej vid msg lv rest temp hb hfmt] at hf
        simp only at hf
        cases rest with
        | nil =>
          simp only [runFallback] at hf
          have := (List.mem_filter.mp hf).2
          simpa using this
        | cons b rest' =>
          exact ih ((temp ++ lv).filter (fun f => ¬(vidMatches vid f = true)))
            (by simp) (fun x hx => hall x (by simp [hx])) f hf
  · intro vid msg lv rest temp hb
    rw [runFallback_step_bot vid msg lv rest temp hb]
  · intro vid msg lv rest temp hb hf
    rw [runFallback_step_other vid msg lv rest temp hb hf]

/-- Witness for partial_cleanup_amended: after a format-rejected attempt
that left a partial file, the run's final temp directory no longer holds
that identifier-matching file. -/
theorem partial_cleanup_amended_witness :
    "v_p.mp4".data ∉
      (runFallback "v".data
        [.err "HTTP Error 403: Forbidden".data ["v_p.mp4".data]] []).temp :=
  fun hmem =>
    absurd
      (partial_cleanup_amended.1 "v".data
        [.err "HTTP Error 403: Forbidden".data ["v_p.mp4".data]] []
        (by decide) (by decide) _ hmem)
      (by decide)

/-- C4 evaluated at the failing input: a request for an identifier that is
already cached streams from cache and leaves its active_downloads entry
(written by stream_file) in place after the request completes, while a
non-cached request that fails ends with the registry empty. -/
theorem cache_hit_leaves_active_entry :
    ((handleDownload (fun s => (s, .fetchErr "unused")) (some "v1") "1080" 100
        (fun _ => true)
        ⟨⟨[("v1", ⟨"cache/v1.mp4", 5, "1080p", 0, "v1.mp4"⟩)],
          [("v1", ⟨"cache/v1.mp4", 5, "1080p", 0, "v1.mp4"⟩)]⟩,
          [], [], ⟨0, 0⟩⟩).1.active = [("v1", "transferring")]
      ∧ (handleDownload (fun s => (s, .fetchErr "unused")) (some "v1") "1080" 100
        (fun _ => true)
        ⟨⟨[("v1", ⟨"cache/v1.mp4", 5, "1080p", 0, "v1.mp4"⟩)],
          [("v1", ⟨"cache/v1.mp4", 5, "1080p", 0, "v1.mp4"⟩)]⟩,
          [], [], ⟨0, 0⟩⟩).2 = .streamed "v1" "1080p" true)
    ∧ ((handleDownload (fun s => (s, .fetchErr "boom")) (some "v1") "1080" 100
        (fun _ => true) ⟨⟨[], []⟩, [], [], ⟨0, 0⟩⟩).1.active = []
      ∧ (handleDownload (fun s => (s, .fetchErr "boom")) (some "v1") "1080" 100
        (fun _ => true) ⟨⟨[], []⟩, [], [], ⟨0, 0⟩⟩).2
          = .errJson "boom" 500) := by
  decide

/-- Counterexample to C5 as stated: a cache lookup hit mutates the
in-memory index (promoting the entry to most recently used) but returns
with the on-disk index unchanged, so disk and memory disagree. -/
theorem lookup_hit_skips_persist :
    (getFromCache "a" (fun _ => true)
        ⟨[("a", ⟨"cache/a.mp4", 1, "720p", 0, "a.mp4"⟩),
          ("b", ⟨"cache/b.mp4", 2, "720p", 0, "b.mp4"⟩)],
         [("a", ⟨"cache/a.mp4", 1, "720p", 0, "a.mp4"⟩),
          ("b", ⟨"cache/b.mp4", 2, "720p", 0, "b.mp4"⟩)]⟩).2
      = some ⟨"cache/a.mp4", 1, "720p", 0, "a.mp4"⟩
    ∧ (getFromCache "a" (fun _ => true)
        ⟨[("a", ⟨"cache/a.mp4", 1, "720p", 0, "a.mp4"⟩),
          ("b", ⟨"cache/b.mp4", 2, "720p", 0, "b.mp4"⟩)],
         [("a", ⟨"cache/a.mp4", 1, "720p", 0, "a.mp4"⟩),
          ("b", ⟨"cache/b.mp4", 2, "720p", 0, "b.mp4"⟩)]⟩).1.mem
      = [("b", ⟨"cache/b.mp4", 2, "720p", 0, "b.mp4"⟩),
         ("a", ⟨"cache/a.mp4", 1, "720p", 0, "a.mp4"⟩)]
    ∧ (getFromCache "a" (fun _ => true)
        ⟨[("a", ⟨"cache/a.mp4", 1, "720p", 0, "a.mp4"⟩),
          ("b", ⟨"cache/b.mp4", 2, "720p", 0, "b.mp4"⟩)],
         [("a", ⟨"cache/a.mp4", 1, "720p", 0, "a.mp4"⟩),
          ("b", ⟨"cache/b.mp4", 2, "720p", 0, "b.mp4"⟩)]⟩).1.disk
      ≠ (getFromCache "a" (fun _ => true)
        ⟨[("a", ⟨"cache/a.mp4", 1, "720p", 0, "a.mp4"⟩),
          ("b", ⟨"cache/b.mp4", 2, "720p", 0, "b.mp4"⟩)],
         [("a", ⟨"cache/a.mp4", 1, "720p", 0, "a.mp4"⟩),
          ("b", ⟨"cache/b.mp4", 2, "720p", 0, "b.mp4"⟩)]⟩).1.mem := by
  decide

/-- C5 amended: insert and the lookup path that purges a stale entry
persist the index synchronously before returning, but a lookup hit
promotes the entry in memory only, leaving the on-disk index as it was;
a lookup of an absent identifier changes nothing. -/
theorem cache_persistence_amended :
    (∀ (maxSize : Nat) (vid : String) (e : CacheEntry) (s : CacheState),
      (addToCacheP maxSize vid e s).disk = (addToCacheP maxSize vid e s).mem)
    ∧ (∀ (vid : String) (fe : String → Bool) (s : CacheState) (p : CachePair),
        s.mem.find? (fun q => q.1 == vid) = some p → fe p.2.path = false →
        (getFromCache vid fe s).1.disk = (getFromCache vid fe s).1.mem)
    ∧ (∀ (vid : String) (fe : String → Bool) (s : CacheState) (p : CachePair),
        s.mem.find? (fun q => q.1 == vid) = some p → fe p.2.path = true →
        (getFromCache vid fe s).1.disk = s.disk
        ∧ (getFromCache vid fe s).1.mem
            = s.mem.filter (fun q => ¬(q.1 = vid)) ++ [(vid, p.2)]
        ∧ (getFromCache vid fe s).2 = some p.2)
    ∧ (∀ (vid : String) (fe : String → Bool) (s : CacheState),
        s.mem.find? (fun q => q.1 == vid) = none →
        getFromCache vid fe s = (s, none)) := by
  refine ⟨?_, ?_, ?_, ?_⟩
  · intro maxSize vid e s; rfl
  · intro vid fe s p hfind hfe
    simp [getFromCache, hfind, hfe, saveCacheIndex]
  · intro vid fe s p hfind hfe
    simp [getFromCache, hfind, hfe]
  · intro vid fe s hfind
    simp [getFromCache, hfind]

/-- Witness for cache_persistence_amended: an insert leaves disk equal to
memory, and a lookup hit leaves the disk copy untouched. -/
theorem cache_persistence_amended_witness :
    (addToCacheP 2 "a" ⟨"p", 1, "q", 0, "f"⟩ ⟨[], []⟩).disk
      = (addToCacheP 2 "a" ⟨"p", 1, "q", 0, "f"⟩ ⟨[], []⟩).mem
    ∧ (getFromCache "a" (fun _ => true)
        ⟨[("a", ⟨"p", 1, "q", 0, "f"⟩)], []⟩).1.disk = [] :=
  ⟨cache_persistence_amended.1 2 "a" ⟨"p", 1, "q", 0, "f"⟩ ⟨[], []⟩,
    (cache_persistence_amended.2.2.1 "a" (fun _ => true)
      ⟨[("a", ⟨"p", 1, "q", 0, "f"⟩)], []⟩ ("a", ⟨"p", 1, "q", 0, "f"⟩)
      (by decide) rfl).1⟩

/-! ## Helper lemmas for substring containment across joined error lines -/

lemma containsSub_nil_left : ∀ t : List Char, containsSub [] t = true
  | [] => rfl
  | _ :: rest => by
    simp [containsSub, List.isPrefixOf]

lemma isPrefixOf_append_ext (sub s t : List Char)
    (h : sub.isPrefixOf s = true) : sub.isPrefixOf (s ++ t) = true := by
  rw [List.isPrefixOf_iff_prefix] at h ⊢
  exact h.trans (List.prefix_append s t)

lemma containsSub_append_right (sub s t : List Char)
    (h : containsSub sub s = true) : containsSub sub (s ++ t) = true := by
  induction s with
  | nil =>
    have hsub : sub = [] := by
      cases sub with
      | nil => rfl
      | cons c cs => simp [containsSub, List.isPrefixOf] at h
    rw [hsub]
    exact containsSub_nil_left _
  | cons c s' ih =>
    rw [List.cons_append]
    simp only [containsSub, Bool.or_eq_true] at h ⊢
    rcases h with h | h
    · exact Or.inl (by
        have := isPrefixOf_append_ext sub (c :: s') t h
        simpa using this)
    · exact Or.inr (ih h)

lemma containsSub_append_left (sub t s : List Char)
    (h : containsSub sub s = true) : containsSub sub (t ++ s) = true := by
  induction t with
  | nil => simpa using h
  | cons c t' ih =>
    rw [List.cons_append]
    simp only [containsSub, Bool.or_eq_true]
    exact Or.inr ih

lemma mem_join_infix (l : List Char) :
    ∀ ls : List (List Char), l ∈ ls →
      ∃ u v, joinLines ls = u ++ (l ++ v) := by
  intro ls
  induction ls with
  | nil => intro h; cases h
  | cons x ls' ih =>
    intro h
    rcases List.mem_cons.mp h with h1 | h1
    · subst h1
      cases ls' with
      | nil => exact ⟨[], [], by simp [joinLines]⟩
      | cons y ls'' =>
        exact ⟨[], '\n' :: joinLines (y :: ls''), by simp [joinLines]⟩
    · obtain ⟨u, v, hu⟩ := ih h1
      cases ls' with
      | nil => cases h1
      | cons y ls'' =>
        refine ⟨x ++ '\n' :: u, v, ?_⟩
        show joinLines (x :: y :: ls'') = (x ++ '\n' :: u) ++ (l ++ v)
        rw [show joinLines (x :: y :: ls'') = x ++ '\n' :: joinLines (y :: ls'')
          from rfl, hu]
        simp

lemma containsSub_join (sub l : List Char) (ls : List (List Char))
    (hmem : l ∈ ls) (h : containsSub sub (lowerStr l) = true) :
    containsSub sub (lowerStr (joinLines ls)) = true := by
  obtain ⟨u, v, huv⟩ := mem_join_infix l ls hmem
  rw [huv]
  simp only [lowerStr, List.map_append]
  exact containsSub_append_left _ _ _ (containsSub_append_right _ _ _ h)

lemma isBotError_join (l : List Char) (ls : List (List Char))
    (hmem : l ∈ ls) (hbot : isBotError l = true) :
    isBotError (joinLines ls) = true := by
  simp only [isBotError, List.any_eq_true] at hbot ⊢
  obtain ⟨w, hw, hc⟩ := hbot
  exact ⟨w, hw, containsSub_join w l ls hmem hc⟩

/-- Counterexample to C6 as stated: two output lines carrying block
vocabulary are never collected into error_output — one because it lacks
any "error" substring, one because the progress branch (a percent sign
together with "of") consumes it first — so a failed attempt whose only
block markers sit on such lines is classified other-failure, not
block-detected. -/
theorem bot_line_without_error_not_detected :
    isBotError ("Sign in to continue".data) = true
    ∧ isErrorLine ("Sign in to continue".data) = false
    ∧ downloadOutcome ["Sign in to continue".data] 1 none
        = .err ("yt-dlp exited with code 1".data)
    ∧ classifyError (errMsg ["Sign in to continue".data] 1)
        = .otherFailure
    ∧ isBotError ("ERROR: Sign in to confirm: 50% of download".data) = true
    ∧ isProgressLine ("ERROR: Sign in to confirm: 50% of download".data) = true
    ∧ isErrorLine ("ERROR: Sign in to confirm: 50% of download".data) = false
    ∧ classifyError
        (errMsg ["ERROR: Sign in to confirm: 50% of download".data] 1)
        = .otherFailure := by
  decide

/-- C6 amended: if any collected error line of a failed attempt — a line
that escapes the progress branch (no percent sign together with "of" or
"ETA") and contains "error" case-insensitively — matches the
block-detection vocabulary, the attempt's error message is classified
block-detected —
taking priority over any 403/forbidden/format marker in the message and
regardless of why the exit code is non-zero — and the fallback loop then
records a bot failure and aborts after that single attempt.  Lines the
progress branch consumes, and lines without "error", never reach
error_output and cannot trigger this. -/
theorem bot_priority_amended (lines : List (List Char)) (code : Int)
    (l : List Char) (hc : code ≠ 0) (hmem : l ∈ lines)
    (herr : isErrorLine l = true) (hbot : isBotError l = true) :
    isBotError (errMsg lines code) = true
    ∧ classifyError (errMsg lines code) = .blockDetected
    ∧ (∀ found : Option (List Char),
        downloadOutcome lines code found = .err (errMsg lines code))
    ∧ (∀ (vid : List Char) (lv : List (List Char)) (post : List Attempt)
        (temp : List (List Char)),
        (runFallback vid (.err (errMsg lines code) lv :: post) temp).recorded
            = [true]
        ∧ (runFallback vid (.err (errMsg lines code) lv :: post) temp).attempts
            = 1) := by
  have herrs : l ∈ lines.filter isErrorLine := List.mem_filter.mpr ⟨hmem, herr⟩
  have hne : (lines.filter isErrorLine).isEmpty = false := by
    cases hl : lines.filter isErrorLine with
    | nil => rw [hl] at herrs; cases herrs
    | cons y ys => rfl
  have hmsg : errMsg lines code = joinLines (lines.filter isErrorLine) := by
    simp [errMsg, hne]
  have hbotmsg : isBotError (errMsg lines code) = true := by
    rw [hmsg]
    exact isBotError_join l _ herrs hbot
  refine ⟨hbotmsg, ?_, ?_, ?_⟩
  · simp [classifyError, hbotmsg]
  · intro found
    simp [downloadOutcome, hc]
  · intro vid lv post temp
    rw [runFallback_step_bot vid _ lv post temp hbotmsg]
    exact ⟨rfl, rfl⟩

/-- Witness for bot_priority_amended: an error line holding both a block
marker and a 403 marker classifies as block-detected, the block test
winning. -/
theorem bot_priority_amended_witness :
    isBotError
      (errMsg ["ERROR: Sign in to confirm. HTTP Error 403".data] 1) = true
    ∧ classifyError
        (errMsg ["ERROR: Sign in to confirm. HTTP Error 403".data] 1)
      = .blockDetected
    ∧ isFormatError
        (errMsg ["ERROR: Sign in to confirm. HTTP Error 403".data] 1) = true := by
  have h := bot_priority_amended
    ["ERROR: Sign in to confirm. HTTP Error 403".data] 1
    ("ERROR: Sign in to confirm. HTTP Error 403".data)
    (by decide) (by simp) (by decide) (by decide)
  exact ⟨h.1, h.2.1, by decide⟩

/-- C7: on one wait_for_rate_limit invocation, a live block marker with
less than the sampled cooldown elapsed makes the caller wait exactly the
remaining cooldown, after which the marker is cleared (and only then); the
normal inter-request spacing wait is computed from the same entry time and
the last fetch time alone, independent of the block state, and is enforced
after — never instead of — the block cooldown, the clock advancing by both
waits in that order. -/
theorem rate_limit_spec (st : RateState) (now cool delay : Int) :
    (0 < st.lastBotDetection → now - st.lastBotDetection < cool →
      (waitForRateLimit st now cool delay).1 = cool - (now - st.lastBotDetection)
      ∧ (waitForRateLimit st now cool delay).2.2.lastBotDetection = 0)
    ∧ (0 < st.lastBotDetection → ¬(now - st.lastBotDetection < cool) →
      (waitForRateLimit st now cool delay).1 = 0
      ∧ (waitForRateLimit st now cool delay).2.2.lastBotDetection
          = st.lastBotDetection)
    ∧ (st.lastBotDetection ≤ 0 →
      (waitForRateLimit st now cool delay).1 = 0
      ∧ (waitForRateLimit st now cool delay).2.2.lastBotDetection
          = st.lastBotDetection)
    ∧ ((waitForRateLimit st now cool delay).2.1
        = (waitForRateLimit ⟨st.lastDownloadTime, 0⟩ now cool delay).2.1)
    ∧ (0 < st.lastDownloadTime → now - st.lastDownloadTime < delay →
      (waitForRateLimit st now cool delay).2.1
        = delay - (now - st.lastDownloadTime))
    ∧ (0 < st.lastDownloadTime → ¬(now - st.lastDownloadTime < delay) →
      (waitForRateLimit st now cool delay).2.1 = 0)
    ∧ ((waitForRateLimit st now cool delay).2.2.lastDownloadTime
        = now + (waitForRateLimit st now cool delay).1
            + (waitForRateLimit st now cool delay).2.1) := by
  refine ⟨?_, ?_, ?_, rfl, ?_, ?_, rfl⟩
  · intro ha hb
    simp [waitForRateLimit, ha, hb]
  · intro ha hb
    simp [waitForRateLimit, ha, hb]
  · intro ha
    simp [waitForRateLimit, not_lt.mpr ha]
  · intro ha hb
    simp [waitForRateLimit, ha, hb]
  · intro ha hb
    simp [waitForRateLimit, ha, hb]

/-- Witness for rate_limit_spec: a block 15 seconds old against a 40
second cooldown waits 25 seconds and clears the marker, then the normal
spacing check (2 of 4 seconds elapsed) waits 2 more; the clock lands on
entry time plus both waits. -/
theorem rate_limit_spec_witness :
    (waitForRateLimit ⟨18, 5⟩ 20 40 4).1 = 25
    ∧ (waitForRateLimit ⟨18, 5⟩ 20 40 4).2.1 = 2
    ∧ (waitForRateLimit ⟨18, 5⟩ 20 40 4).2.2.lastBotDetection = 0
    ∧ (waitForRateLimit ⟨18, 5⟩ 20 40 4).2.2.lastDownloadTime = 47 := by
  have h := rate_limit_spec ⟨18, 5⟩ 20 40 4
  exact ⟨(h.1 (by decide) (by decide)).1.trans (by decide),
    (h.2.2.2.2.1 (by decide) (by decide)).trans (by decide),
    (h.1 (by decide) (by decide)).2,
    by decide⟩

/-- C9: for each supported quality tier the selected descriptor list is
the contiguous suffix of the static capability-ordered table starting at
the tier's offset, hence non-empty and ending at the guaranteed baseline
"worst" descriptor; the offsets rise as the tier cap falls (max at 0,
then 1080, 720, 360). -/
theorem quality_formats_spec (q : String)
    (hq : q = "max" ∨ q = "1080" ∨ q = "720" ∨ q = "360") :
    getQualityFormats q = allFormats.drop (startIndex q)
    ∧ List.IsSuffix (getQualityFormats q) allFormats
    ∧ getQualityFormats q ≠ []
    ∧ (getQualityFormats q).getLast? = some ("worst", "worst")
    ∧ startIndex "max" = 0 ∧ startIndex "max" < startIndex "1080"
    ∧ startIndex "1080" < startIndex "720"
    ∧ startIndex "720" < startIndex "360" := by
  rcases hq with h | h | h | h <;> subst h <;>
    exact ⟨rfl, by decide, by decide,
      by decide, by decide, by decide, by decide, by decide⟩

/-- Witness for quality_formats_spec at the "720" tier. -/
theorem quality_formats_spec_witness :
    getQualityFormats "720" = allFormats.drop 4
    ∧ getQualityFormats "720" ≠ []
    ∧ (getQualityFormats "720").getLast? = some ("worst", "worst") := by
  have h := quality_formats_spec "720" (Or.inr (Or.inr (Or.inl rfl)))
  exact ⟨h.1, h.2.2.1, h.2.2.2.1⟩

/-- C10: the /health path answers its state snapshot with no credential
comparison (the response is the same whatever key the request carries),
while any other path with a mismatched X-API-Key answers 401 Invalid API
key and leaves the server state untouched. -/
theorem auth_gate_spec (handle : String → ServerState → ServerState × Resp)
    (path key cfg : String) (now : Int) (st : ServerState) :
    (path = "/health" →
      doGET handle path key cfg now st = (st, healthResp now st))
    ∧ (¬(path = "/health") → ¬(key = cfg) →
      doGET handle path key cfg now st
        = (st, .errJson "Invalid API key" 401)) := by
  constructor
  · intro h
    simp [doGET, h]
  · intro h1 h2
    simp [doGET, h1, h2]

/-- Witness for auth_gate_spec: with a wrong key, /health still answers
its snapshot and /cache answers 401 with the state unchanged. -/
theorem auth_gate_spec_witness :
    doGET (fun _ s => (s, Resp.handled "x")) "/health" "wrong" "secret" 0
        ⟨⟨[], []⟩, [], [], ⟨0, 0⟩⟩
      = (⟨⟨[], []⟩, [], [], ⟨0, 0⟩⟩,
          healthResp 0 ⟨⟨[], []⟩, [], [], ⟨0, 0⟩⟩)
    ∧ doGET (fun _ s => (s, Resp.handled "x")) "/cache" "wrong" "secret" 0
        ⟨⟨[], []⟩, [], [], ⟨0, 0⟩⟩
      = (⟨⟨[], []⟩, [], [], ⟨0, 0⟩⟩, .errJson "Invalid API key" 401) :=
  ⟨(auth_gate_spec (fun _ s => (s, Resp.handled "x")) "/health" "wrong"
      "secret" 0 ⟨⟨[], []⟩, [], [], ⟨0, 0⟩⟩).1 rfl,
    (auth_gate_spec (fun _ s => (s, Resp.handled "x")) "/cache" "wrong"
      "secret" 0 ⟨⟨[], []⟩, [], [], ⟨0, 0⟩⟩).2 (by decide) (by decide)⟩
